import Mathlib

/-!
Verification of the instalily-case-study chat client against its
specification.  The definitions below are a shallow embedding of the
JavaScript source: `frontend/src/api/api.js` (request formatting and
error recovery in `getAIMessage`), the chat-history utilities
(`saveChatSession`, `deleteChatSession`), and
`frontend/src/components/ChatWindow.js` (`handleSend`, the custom
marked renderer `renderer.code`, `renderProductCard`,
`renderProductList`).  JavaScript runtime values that the code
manipulates (results of `JSON.parse`, truthiness, string coercion) are
modelled by the `JsVal` type and the functions that follow it.
-/

/-- A JavaScript JSON value as produced by `JSON.parse`.  `num` keeps the
numeric lexeme as written, which is all the client code ever inspects
(truthiness and string interpolation). -/
inductive JsVal where
  | null : JsVal
  | bool : Bool → JsVal
  | num : String → JsVal
  | str : String → JsVal
  | arr : List JsVal → JsVal
  | obj : List (String × JsVal) → JsVal

/-- Whether a numeric lexeme denotes zero: every digit of the mantissa
(the part before any exponent marker) is `0`. -/
def jsNumIsZero (raw : String) : Bool :=
  ((raw.data.takeWhile fun c => !(c == 'e' || c == 'E')).filter Char.isDigit).all
    (fun c => c == '0')

/-- JavaScript truthiness of a value.  A missing object field (JS
`undefined`) is modelled by `JsVal.null`, which is falsy exactly like
`undefined`. -/
def jsTruthy : JsVal → Bool
  | .null => false
  | .bool b => b
  | .num raw => !jsNumIsZero raw
  | .str s => !(s == "")
  | .arr _ => true
  | .obj _ => true

/-- Last binding of a key in an object's member list; `JSON.parse` keeps
the last of duplicate keys. -/
def lookupLastMember : List (String × JsVal) → String → Option JsVal
  | [], _ => none
  | (k2, v) :: rest, k =>
    match lookupLastMember rest k with
    | some w => some w
    | none => if k2 == k then some v else none

/-- Property read `j[k]` on a parsed JSON value.  On non-objects the
read yields `undefined`, modelled as `JsVal.null`.  (A read on JS `null`
itself throws; the call sites below handle that case before reading.) -/
def jsGet (j : JsVal) (k : String) : JsVal :=
  match j with
  | .obj ms => (lookupLastMember ms k).getD .null
  | _ => .null

/-- `true` exactly on string values. -/
def jsIsStr : JsVal → Bool
  | .str _ => true
  | _ => false

/-- JavaScript string coercion, with recursion bounded by fuel; array
elements that are null stringify to the empty string as in
`Array.prototype.join`. -/
def jsToStringF : Nat → JsVal → String
  | _, .null => "null"
  | _, .bool b => cond b "true" "false"
  | _, .num raw => raw
  | _, .str s => s
  | 0, .arr _ => ""
  | n + 1, .arr xs =>
    String.intercalate ","
      (xs.map fun x =>
        match x with
        | .null => ""
        | y => jsToStringF n y)
  | _, .obj _ => "[object Object]"

/-- Recursion-depth bound for string coercion, standing in for the
JavaScript engine's finite call stack. -/
def jsStackBound : Nat := 1000000

/-- JavaScript string coercion of a value, as used by template-literal
interpolation. -/
def jsToString (j : JsVal) : String := jsToStringF jsStackBound j

/-- JavaScript `a || b`. -/
def jsOr (a b : JsVal) : JsVal := if jsTruthy a then a else b

/-- JSON insignificant whitespace. -/
def isJsonWs (c : Char) : Bool :=
  match c with
  | ' ' | '\t' | '\n' | '\r' => true
  | _ => false

/-- Drop leading JSON whitespace. -/
def skipWs : List Char → List Char
  | [] => []
  | c :: cs => cond (isJsonWs c) (skipWs cs) (c :: cs)

/-- Value of a hexadecimal digit, via its code point. -/
def hexVal (c : Char) : Option Nat :=
  let n := c.toNat
  if 48 ≤ n && n ≤ 57 then some (n - 48)
  else if 97 ≤ n && n ≤ 102 then some (n - 87)
  else if 65 ≤ n && n ≤ 70 then some (n - 55)
  else none

/-- Single-character JSON string escapes. -/
def escChar (e : Char) : Option Char :=
  if e == '"' then some '"'
  else if e == '\\' then some '\\'
  else if e == '/' then some '/'
  else if e == 'b' then some (Char.ofNat 8)
  else if e == 'f' then some (Char.ofNat 12)
  else if e == 'n' then some '\n'
  else if e == 'r' then some '\r'
  else if e == 't' then some '\t'
  else none

/-- Parse the body of a JSON string after its opening quote, returning
the decoded characters and the input after the closing quote. -/
def parseStrAux : Nat → List Char → Option (List Char × List Char)
  | 0, _ => none
  | _ + 1, [] => none
  | n + 1, c :: cs =>
    if c == '"' then some ([], cs)
    else if c == '\\' then
      match cs with
      | [] => none
      | e :: cs2 =>
        if e == 'u' then
          match cs2 with
          | a :: b :: c3 :: d :: cs3 => do
            let ha ← hexVal a
            let hb ← hexVal b
            let hc ← hexVal c3
            let hd ← hexVal d
            let (body, rest) ← parseStrAux n cs3
            some (Char.ofNat (((ha * 16 + hb) * 16 + hc) * 16 + hd) :: body, rest)
          | _ => none
        else do
          let ec ← escChar e
          let (body, rest) ← parseStrAux n cs2
          some (ec :: body, rest)
    else do
      let (body, rest) ← parseStrAux n cs
      some (c :: body, rest)

/-- Longest run of decimal digits at the head of the input. -/
def spanDigits : List Char → List Char × List Char
  | [] => ([], [])
  | c :: cs =>
    if c.isDigit then
      let (d, r) := spanDigits cs
      (c :: d, r)
    else ([], c :: cs)

/-- Parse an optional exponent part after the mantissa `lex`. -/
def parseNumExp (lex : List Char) (cs : List Char) : Option (List Char × List Char) :=
  match cs with
  | c :: r =>
    if c == 'e' || c == 'E' then
      let (s2, r2) :=
        match r with
        | '+' :: q => (['+'], q)
        | '-' :: q => (['-'], q)
        | _ => (([] : List Char), r)
      let (d, r3) := spanDigits r2
      if d.isEmpty then none else some (lex ++ c :: (s2 ++ d), r3)
    else some (lex, cs)
  | [] => some (lex, [])

/-- Parse a JSON number, returning its lexeme and the remaining input. -/
def parseNum (cs : List Char) : Option (List Char × List Char) :=
  let (sign, cs1) :=
    match cs with
    | '-' :: r => ((['-'] : List Char), r)
    | _ => ([], cs)
  let (ip, cs2) := spanDigits cs1
  if ip.isEmpty then none
  else
    match cs2 with
    | '.' :: r =>
      let (fp, r2) := spanDigits r
      if fp.isEmpty then none
      else parseNumExp (sign ++ ip ++ '.' :: fp) r2
    | _ => parseNumExp (sign ++ ip) cs2

/-- Parse the elements of a non-empty JSON array (after `[` and leading
whitespace), given a parser `pv` for one value. -/
def parseElemsAux (pv : List Char → Option (JsVal × List Char)) :
    Nat → List Char → Option (List JsVal × List Char)
  | 0, _ => none
  | n + 1, cs => do
    let (v, r) ← pv cs
    match skipWs r with
    | ',' :: r2 => do
      let (vs, r3) ← parseElemsAux pv n r2
      some (v :: vs, r3)
    | ']' :: r2 => some ([v], r2)
    | _ => none

/-- Parse the members of a non-empty JSON object (after the opening
brace and leading whitespace), given a parser `pv` for one value. -/
def parseMembersAux (pv : List Char → Option (JsVal × List Char)) :
    Nat → List Char → Option (List (String × JsVal) × List Char)
  | 0, _ => none
  | n + 1, cs =>
    match skipWs cs with
    | '"' :: r => do
      let (k, r1) ← parseStrAux (r.length + 1) r
      match skipWs r1 with
      | ':' :: r3 => do
        let (v, r4) ← pv r3
        match skipWs r4 with
        | ',' :: r6 => do
          let (ms, r7) ← parseMembersAux pv n r6
          some ((String.mk k, v) :: ms, r7)
        | '}' :: r6 => some ([(String.mk k, v)], r6)
        | _ => none
      | _ => none
    | _ => none

/-- Parse one JSON value; fuel bounds the nesting/recursion depth. -/
def parseVal : Nat → List Char → Option (JsVal × List Char)
  | 0, _ => none
  | n + 1, cs0 =>
    match skipWs cs0 with
    | [] => none
    | '{' :: r =>
      (match skipWs r with
       | '}' :: r2 => some (.obj [], r2)
       | r1 => do
         let (ms, r2) ← parseMembersAux (parseVal n) n r1
         some (.obj ms, r2))
    | '[' :: r =>
      (match skipWs r with
       | ']' :: r2 => some (.arr [], r2)
       | r1 => do
         let (vs, r2) ← parseElemsAux (parseVal n) n r1
         some (.arr vs, r2))
    | '"' :: r => do
      let (s, r1) ← parseStrAux (r.length + 1) r
      some (.str (String.mk s), r1)
    | 't' :: 'r' :: 'u' :: 'e' :: r => some (.bool true, r)
    | 'f' :: 'a' :: 'l' :: 's' :: 'e' :: r => some (.bool false, r)
    | 'n' :: 'u' :: 'l' :: 'l' :: r => some (.null, r)
    | cs => do
      let (lex, r) ← parseNum cs
      some (.num (String.mk lex), r)

/-- Model of the JavaScript builtin `JSON.parse`: `none` models a thrown
`SyntaxError`. -/
def parseJson (s : String) : Option JsVal :=
  match parseVal (s.length + 1) s.data with
  | some (v, rest) => if (skipWs rest).isEmpty then some v else none
  | none => none


/-- `renderProductCard` from `ChatWindow.js`: builds the product-card
HTML for one parsed value.  `none` models the `TypeError` thrown by a
property read on a JS `null` payload (which the surrounding `try` in
`renderer.code` turns into the literal-text fallback). -/
def renderProductCard (product : JsVal) : Option String :=
  match product with
  | .null => none
  | p =>
    some ("\n      <div class=\"product-card\">\n        <div class=\"product-header\">\n          <h3>"
      ++ jsToString (jsOr (jsGet p "part_name") (jsOr (jsGet p "name") (.str "Product")))
      ++ "</h3>\n          <span class=\"product-price\">"
      ++ jsToString (jsOr (jsGet p "price") (.str ""))
      ++ "</span>\n        </div>\n        "
      ++ (if jsTruthy (jsGet p "image_url") then
            "<img src=\"" ++ jsToString (jsGet p "image_url") ++ "\" alt=\""
              ++ jsToString (jsOr (jsGet p "part_name") (.str "Product"))
              ++ "\" class=\"product-image\" />"
          else "")
      ++ "\n        <div class=\"product-details\">\n          "
      ++ (if jsTruthy (jsGet p "manufacturer_number") then
            "<p><strong>Manufacturer #:</strong> "
              ++ jsToString (jsGet p "manufacturer_number") ++ "</p>"
          else "")
      ++ "\n          "
      ++ (if jsTruthy (jsGet p "partselect_number") then
            "<p><strong>PartSelect #:</strong> "
              ++ jsToString (jsGet p "partselect_number") ++ "</p>"
          else "")
      ++ "\n          "
      ++ (if jsTruthy (jsGet p "description") then
            "<p>" ++ jsToString (jsGet p "description") ++ "</p>"
          else "")
      ++ "\n          "
      ++ (if jsTruthy (jsGet p "url") then
            "<a href=\"" ++ jsToString (jsGet p "url")
              ++ "\" target=\"_blank\" class=\"product-link\">View Details</a>"
          else "")
      ++ "\n        </div>\n      </div>\n    ")

/-- `renderProductList` from `ChatWindow.js`: the empty list renders a
plain not-found paragraph, otherwise the cards are joined inside a
product-list div.  `none` models an element's card rendering throwing. -/
def renderProductList (products : List JsVal) : Option String :=
  if products.isEmpty then some "<p>No products found</p>"
  else do
    let cards ← products.mapM renderProductCard
    some ("\n      <div class=\"product-list\">\n        "
      ++ String.join cards
      ++ "\n      </div>\n    ")

/-- Body of the `try` block in `renderer.code` after a successful
`JSON.parse`: `Array.isArray` dispatch between list and card. -/
def jsRenderFragment : JsVal → Option String
  | .arr xs => renderProductList xs
  | j => renderProductCard j

/-- The patched `renderer.code` from `ChatWindow.js`.  `defaultRender`
stands for the captured `originalCodeRenderer`; any exception inside the
`try` (unparseable JSON, or a fragment rendering that throws) falls back
to it. -/
def rendererCode (defaultRender : String → String → String)
    (code language : String) : String :=
  if language == "json-to-render" || language == "dictionary-list-to-render" then
    match parseJson code with
    | none => defaultRender code language
    | some j =>
      match jsRenderFragment j with
      | some s => s
      | none => defaultRender code language
  else defaultRender code language

/-- A concrete default code renderer, used to instantiate
`rendererCode`'s `defaultRender` parameter at concrete inputs. -/
def defaultCodeRender (code language : String) : String :=
  "<pre><code class=\"language-" ++ language ++ "\">" ++ code ++ "</code></pre>"

/-- A message held in the React `messages` state: the fields the client
code reads (`role`, `content`, `isLoading`, `timestamp`).  The loading
placeholder leaves `content` and `timestamp` absent, modelled as `""`. -/
structure ChatMessage where
  role : String
  content : String
  isLoading : Bool
  timestamp : String
deriving DecidableEq

/-- An entry of the `conversation_history` request field: exactly the
fields `role` and `content`. -/
structure WireMessage where
  role : String
  content : String
deriving DecidableEq

/-- The `formattedHistory` computation in `getAIMessage` (api.js):
filter out loading messages, then keep only role and content. -/
def formattedHistory (conversationHistory : List ChatMessage) : List WireMessage :=
  (conversationHistory.filter fun msg => !msg.isLoading).map
    fun msg => { role := msg.role, content := msg.content }

/-- The JSON body sent to `POST /api/query`. -/
structure QueryRequest where
  query : String
  conversation_history : List WireMessage
deriving DecidableEq

/-- Request-body construction in `getAIMessage` (api.js). -/
def buildQueryRequest (userQuery : String)
    (conversationHistory : List ChatMessage) : QueryRequest :=
  { query := userQuery, conversation_history := formattedHistory conversationHistory }

/-- `Response.ok` of the Fetch API: status in the 2xx range. -/
def responseOk (status : Nat) : Bool := 200 ≤ status && status < 300

/-- Outcome of the `fetch` call in `getAIMessage`: either the promise
rejects (network failure) or a response with a status and body text
arrives. -/
inductive FetchOutcome where
  | networkError (message : String)
  | httpResponse (status : Nat) (body : String)

/-- The message object `getAIMessage` resolves with.  `content` is a raw
JS value: the code stores `data.response` without checking its type. -/
structure AIMessage where
  role : String
  content : JsVal
  timestamp : String

/-- The apology produced by the `catch` block of `getAIMessage`,
wrapping the caught error's message. -/
def apologyContent (errorMessage : String) : String :=
  "Sorry, I encountered an error while processing your request: "
    ++ errorMessage ++ ". Please try again later."

/-- Fallback content when `data.response` is falsy. -/
def fallbackResponse : String := "Sorry, I couldn\x27t process your request."

/-- Message of the error thrown on a non-ok response. -/
def httpErrorMessage (status : Nat) : String :=
  "HTTP error! Status: " ++ toString status

/-- Stand-in for the engine-specific `SyntaxError` message thrown by
`JSON.parse` on an unparseable body. -/
def jsonParseErrorText : String := "Unexpected end of JSON input"

/-- Stand-in for the engine-specific `TypeError` message thrown by
reading `.response` when the parsed body is JS `null`. -/
def nullReadErrorText : String :=
  "Cannot read properties of null (reading \x27response\x27)"

/-- `getAIMessage` from api.js, as a function of the fetch outcome: the
non-ok branch throws an HTTP error that the `catch` turns into an
apology, an unparseable body does the same via `response.json()`, and on
success the content is `data.response || fallback`. -/
def getAIMessage (userQuery : String) (conversationHistory : List ChatMessage)
    (now : String) (outcome : FetchOutcome) : AIMessage :=
  match outcome with
  | .networkError m =>
    { role := "assistant", content := .str (apologyContent m), timestamp := now }
  | .httpResponse status body =>
    if !responseOk status then
      { role := "assistant"
        content := .str (apologyContent (httpErrorMessage status))
        timestamp := now }
    else
      match parseJson body with
      | none =>
        { role := "assistant"
          content := .str (apologyContent jsonParseErrorText)
          timestamp := now }
      | some .null =>
        { role := "assistant"
          content := .str (apologyContent nullReadErrorText)
          timestamp := now }
      | some data =>
        { role := "assistant"
          content :=
            if jsTruthy (jsGet data "response") then jsGet data "response"
            else .str fallbackResponse
          timestamp := now }

/-- Whitespace as removed by JavaScript `String.prototype.trim`. -/
def isJsWhitespace (c : Char) : Bool :=
  match c with
  | ' ' | '\t' | '\n' | '\r' => true
  | _ => c.toNat == 11 || c.toNat == 12

/-- Model of `String.prototype.trim`. -/
def jsTrim (s : String) : String :=
  String.mk (((s.data.dropWhile isJsWhitespace).reverse.dropWhile isJsWhitespace).reverse)

/-- The loading placeholder appended by `handleSend`
(`role: "assistant", isLoading: true`). -/
def loadingMessage : ChatMessage :=
  { role := "assistant", content := "", isLoading := true, timestamp := "" }

/-- The user message built at the start of `handleSend`. -/
def mkUserMessage (input now : String) : ChatMessage :=
  { role := "user", content := input, isLoading := false, timestamp := now }

/-- `handleSend` from `ChatWindow.js` as a transition on the `messages`
state: blank input returns early; otherwise the user message and a
loading placeholder are appended, and once the response (or the catch
branch's error message) `aiResponse` arrives, the final state filters
out loading messages and appends it.  The boolean records whether a
request was sent to the backend. -/
def handleSend (messages : List ChatMessage) (input : String)
    (aiResponse : ChatMessage) (now : String) : List ChatMessage × Bool :=
  if jsTrim input == "" then (messages, false)
  else
    (((messages ++ [mkUserMessage input now]) ++ [loadingMessage]).filter
        (fun msg => !msg.isLoading) ++ [aiResponse],
      true)

/-- A stored chat session as saved by the chat-history utilities.
Timestamps are modelled as naturals, compared exactly as the numeric
comparator `new Date(b.lastUpdated) - new Date(a.lastUpdated)` does. -/
structure ChatSession where
  id : String
  title : String
  messages : List ChatMessage
  lastUpdated : Nat
deriving DecidableEq

/-- The spread merge `\x7b ...old, ...updated, lastUpdated: now \x7d` in
`saveChatSession`: every field of `updated` overrides `old`, and
`lastUpdated` is refreshed. -/
def mergeSession (old updated : ChatSession) (now : Nat) : ChatSession :=
  { id := updated.id, title := updated.title, messages := updated.messages
    lastUpdated := now }

/-- The `findIndex`/update-or-push step of `saveChatSession`: replace
the first session with a matching id, or push the new session at the
end; in both cases `lastUpdated` is refreshed. -/
def updateOrPush : List ChatSession → ChatSession → Nat → List ChatSession
  | [], cs, now => [{ cs with lastUpdated := now }]
  | s :: rest, cs, now =>
    if s.id == cs.id then mergeSession s cs now :: rest
    else s :: updateOrPush rest cs now

/-- Insertion step of sorting sessions by `lastUpdated`, most recent
first. -/
def insertByLastUpdated (s : ChatSession) : List ChatSession → List ChatSession
  | [] => [s]
  | t :: ts =>
    if t.lastUpdated < s.lastUpdated then s :: t :: ts
    else t :: insertByLastUpdated s ts

/-- The `histories.sort((a, b) => new Date(b.lastUpdated) - new
Date(a.lastUpdated))` step: sort most recent first. -/
def sortByLastUpdatedDesc : List ChatSession → List ChatSession
  | [] => []
  | s :: ss => insertByLastUpdated s (sortByLastUpdatedDesc ss)

/-- `saveChatSession` from the chat-history utilities, as a function of
the stored list: update-or-push keyed by id, then sort by `lastUpdated`
descending (the result is what is written back to localStorage). -/
def saveChatSession (histories : List ChatSession) (chatSession : ChatSession)
    (now : Nat) : List ChatSession :=
  sortByLastUpdatedDesc (updateOrPush histories chatSession now)

/-- `deleteChatSession` from the chat-history utilities (and the
identical filter in `ChatWindow.js`'s `deleteSession`): keep the
sessions whose id differs. -/
def deleteChatSession (histories : List ChatSession) (sessionId : String) :
    List ChatSession :=
  histories.filter fun session => session.id != sessionId

/-- Modelled from the spec: a catalog Part record (named `CatalogPart`
here to avoid clashing with an existing library name) as upserted by
Ingestion.  The ingestion code (backend scraper and Catalog Store
client) is not part of the provided sources; the fields here are the
ones the spec's upsert key precedence mentions. -/
structure CatalogPart where
  name : String
  manufacturer_number : String
  partselect_number : String
  appliance_type : String

/-- Modelled from the spec: the derived hash of (name, appliance_type)
used when neither identifier is available, represented as an injective
pairing of the two fields. -/
def derivedHash (name applianceType : String) : String :=
  "hash:" ++ toString name.length ++ ":" ++ name ++ "|" ++ applianceType

/-- Modelled from the spec: upsert key precedence
`manufacturer_number`, then `partselect_number`, then the derived
hash. -/
def upsertKey (p : CatalogPart) : String :=
  if p.manufacturer_number != "" then p.manufacturer_number
  else if p.partselect_number != "" then p.partselect_number
  else derivedHash p.name p.appliance_type

/-- Modelled from the spec: `upsert_part` of the Catalog Store —
replace the record whose key matches, or append the new record. -/
def upsertPart : List CatalogPart → CatalogPart → List CatalogPart
  | [], p => [p]
  | q :: rest, p =>
    if upsertKey q == upsertKey p then p :: rest
    else q :: upsertPart rest p

/-- Modelled from the spec: one Ingestion run, upserting every source
record in order into the Catalog Store. -/
def ingest (store : List CatalogPart) (source : List CatalogPart) : List CatalogPart :=
  source.foldl upsertPart store

/-- The wire-contract assumption of spec §6 on a fetch outcome: if a
2xx body parses and its `response` field is truthy, that field is a
string. -/
def ResponseFieldIsString : FetchOutcome → Prop
  | .networkError _ => True
  | .httpResponse status body =>
    responseOk status = true →
      match parseJson body with
      | some data =>
        jsTruthy (jsGet data "response") = true →
          jsIsStr (jsGet data "response") = true
      | none => True

theorem apologyContent_ne_empty (m : String) : apologyContent m ≠ "" := by
  intro hcontra
  have hdata := congrArg String.data hcontra
  obtain ⟨l⟩ := m
  simp [apologyContent, String.data] at hdata

theorem resultContent_ok (data : JsVal)
    (hs : jsTruthy (jsGet data "response") = true →
      jsIsStr (jsGet data "response") = true) :
    ∃ s, (if jsTruthy (jsGet data "response") then jsGet data "response"
          else JsVal.str fallbackResponse) = JsVal.str s ∧ s ≠ "" := by
  cases hcond : jsTruthy (jsGet data "response") with
  | false =>
    refine ⟨fallbackResponse, by simp [hcond], by decide⟩
  | true =>
    have hstr := hs hcond
    cases hg : jsGet data "response" with
    | str s =>
      refine ⟨s, by simp [hcond, hg], ?_⟩
      rw [hg] at hcond
      simpa [jsTruthy] using hcond
    | null => rw [hg] at hstr; simp [jsIsStr] at hstr
    | bool b => rw [hg] at hstr; simp [jsIsStr] at hstr
    | num raw => rw [hg] at hstr; simp [jsIsStr] at hstr
    | arr xs => rw [hg] at hstr; simp [jsIsStr] at hstr
    | obj ms => rw [hg] at hstr; simp [jsIsStr] at hstr

/-- C4 (counterexample): a 2xx response whose body is the well-formed
JSON object with a truthy numeric `response` field is passed through
unchanged, so the resulting content is the number 42, not a string. -/
theorem getAIMessage_nonstring_counterexample :
    (getAIMessage "q" [] "t"
      (FetchOutcome.httpResponse 200 "\x7b\"response\":42\x7d")).role = "assistant" ∧
    (getAIMessage "q" [] "t"
      (FetchOutcome.httpResponse 200 "\x7b\"response\":42\x7d")).content = JsVal.num "42" ∧
    jsIsStr (getAIMessage "q" [] "t"
      (FetchOutcome.httpResponse 200 "\x7b\"response\":42\x7d")).content = false :=
  ⟨rfl, rfl, rfl⟩

/-- C4 (amended): for every fetch outcome, `getAIMessage` returns
(never throws) a message with role "assistant"; and whenever any truthy
`response` field of a parsed 2xx body is a string (the wire contract),
the content is a non-empty string — the apology on network failure,
non-2xx status, unparseable body or a null body, the response string
itself when truthy, and the fallback text when the field is absent or
falsy. -/
theorem getAIMessage_total (userQuery : String)
    (conversationHistory : List ChatMessage) (now : String)
    (outcome : FetchOutcome) (h : ResponseFieldIsString outcome) :
    (getAIMessage userQuery conversationHistory now outcome).role = "assistant" ∧
    ∃ s, (getAIMessage userQuery conversationHistory now outcome).content
        = JsVal.str s ∧ s ≠ "" := by
  cases outcome with
  | networkError m =>
    exact ⟨rfl, apologyContent m, rfl, apologyContent_ne_empty m⟩
  | httpResponse status body =>
    cases hok : responseOk status with
    | false =>
      refine ⟨?_, apologyContent (httpErrorMessage status), ?_,
        apologyContent_ne_empty _⟩ <;> simp [getAIMessage, hok]
    | true =>
      have h2 := h hok
      cases hp : parseJson body with
      | none =>
        refine ⟨?_, apologyContent jsonParseErrorText, ?_,
          apologyContent_ne_empty _⟩ <;> simp [getAIMessage, hok, hp]
      | some data =>
        rw [hp] at h2
        cases data with
        | null =>
          refine ⟨?_, apologyContent nullReadErrorText, ?_,
            apologyContent_ne_empty _⟩ <;> simp [getAIMessage, hok, hp]
        | bool b =>
          exact ⟨by simp [getAIMessage, hok, hp],
            by simpa [getAIMessage, hok, hp] using resultContent_ok _ h2⟩
        | num raw =>
          exact ⟨by simp [getAIMessage, hok, hp],
            by simpa [getAIMessage, hok, hp] using resultContent_ok _ h2⟩
        | str s =>
          exact ⟨by simp [getAIMessage, hok, hp],
            by simpa [getAIMessage, hok, hp] using resultContent_ok _ h2⟩
        | arr xs =>
          exact ⟨by simp [getAIMessage, hok, hp],
            by simpa [getAIMessage, hok, hp] using resultContent_ok _ h2⟩
        | obj ms =>
          exact ⟨by simp [getAIMessage, hok, hp],
            by simpa [getAIMessage, hok, hp] using resultContent_ok _ h2⟩

/-- Witness for the amended C4 theorem at a concrete non-2xx outcome. -/
theorem getAIMessage_total_witness :
    (getAIMessage "q" [] "t" (FetchOutcome.httpResponse 500 "oops")).role
        = "assistant" ∧
    ∃ s, (getAIMessage "q" [] "t" (FetchOutcome.httpResponse 500 "oops")).content
        = JsVal.str s ∧ s ≠ "" :=
  getAIMessage_total "q" [] "t" (FetchOutcome.httpResponse 500 "oops")
    (fun hok => absurd hok (by decide))

/-- C1: the `conversation_history` sent in the request body contains
only entries arising from non-loading messages, each reduced to exactly
the fields role and content, and preserves the relative order of the
remaining entries (it is a sublist of the role/content projection of the
full history); moreover every non-loading message of the input
contributes its entry. -/
theorem buildQueryRequest_history (userQuery : String)
    (conversationHistory : List ChatMessage) :
    (∀ w ∈ (buildQueryRequest userQuery conversationHistory).conversation_history,
       ∃ m ∈ conversationHistory, m.isLoading = false ∧
         w = { role := m.role, content := m.content }) ∧
    ((buildQueryRequest userQuery conversationHistory).conversation_history).Sublist
      (conversationHistory.map fun m => { role := m.role, content := m.content }) ∧
    (∀ m ∈ conversationHistory, m.isLoading = false →
       ({ role := m.role, content := m.content } : WireMessage)
         ∈ (buildQueryRequest userQuery conversationHistory).conversation_history) := by
  refine ⟨?_, ?_, ?_⟩
  · intro w hw
    simp only [buildQueryRequest, formattedHistory] at hw
    rcases List.mem_map.mp hw with ⟨m, hmf, rfl⟩
    rcases List.mem_filter.mp hmf with ⟨hm, hload⟩
    exact ⟨m, hm, by simpa using hload, rfl⟩
  · simpa [buildQueryRequest, formattedHistory] using
      List.Sublist.map (fun m : ChatMessage =>
          ({ role := m.role, content := m.content } : WireMessage))
        (List.filter_sublist conversationHistory)
  · intro m hm hload
    simp only [buildQueryRequest, formattedHistory]
    exact List.mem_map.mpr ⟨m, List.mem_filter.mpr ⟨hm, by simp [hload]⟩, rfl⟩

/-- Witness for C1 at a history holding one user message and one
loading placeholder. -/
theorem buildQueryRequest_history_witness :
    (({ role := "user", content := "hi" } : WireMessage)
      ∈ (buildQueryRequest "hi"
          [{ role := "user", content := "hi", isLoading := false, timestamp := "t" },
           { role := "assistant", content := "", isLoading := true, timestamp := "" }]).conversation_history) ∧
    ((buildQueryRequest "hi"
        [{ role := "user", content := "hi", isLoading := false, timestamp := "t" },
         { role := "assistant", content := "", isLoading := true, timestamp := "" }]).conversation_history).Sublist
      (([{ role := "user", content := "hi", isLoading := false, timestamp := "t" },
         { role := "assistant", content := "", isLoading := true, timestamp := "" }] :
            List ChatMessage).map
          fun m => ({ role := m.role, content := m.content } : WireMessage)) :=
  ⟨(buildQueryRequest_history "hi" _).2.2
      { role := "user", content := "hi", isLoading := false, timestamp := "t" }
      (by decide) rfl,
   (buildQueryRequest_history "hi" _).2.1⟩

/-- C3: for either render tag, an unparseable payload falls back to the
unmodified default code rendering (and, the function being total,
rendering never throws). -/
theorem rendererCode_malformed_fallback (defaultRender : String → String → String)
    (code language : String)
    (hlang : language = "json-to-render" ∨ language = "dictionary-list-to-render")
    (hparse : parseJson code = none) :
    rendererCode defaultRender code language = defaultRender code language := by
  rcases hlang with h | h <;> subst h <;> simp [rendererCode, hparse]

/-- Witness for C3 at the unparseable payload consisting of a lone
opening brace. -/
theorem rendererCode_malformed_fallback_witness :
    rendererCode defaultCodeRender "\x7b" "json-to-render"
      = defaultCodeRender "\x7b" "json-to-render" :=
  rendererCode_malformed_fallback defaultCodeRender "\x7b" "json-to-render"
    (Or.inl rfl) rfl

/-- C2 (counterexample): an empty-array payload under the tag
`json-to-render` is rendered as the product list, which differs from the
single-product-card rendering of that same payload — so the tag alone
does not determine which rendering is produced. -/
theorem rendererCode_tag_counterexample :
    rendererCode defaultCodeRender "[]" "json-to-render"
      = "<p>No products found</p>" ∧
    renderProductCard (JsVal.arr []) ≠ some "<p>No products found</p>" :=
  ⟨rfl, by decide⟩

/-- C2 (amended): for either render tag, the shape of the parsed
payload alone determines the rendering — an array payload produces the
product-list rendering, a non-array payload the product-card rendering
(each falling back to the default code rendering when the fragment
rendering throws) — and whenever the fragment renders, the two tags
produce identical output. -/
theorem rendererCode_shape_dispatch (defaultRender : String → String → String)
    (code language : String) (j : JsVal)
    (hlang : language = "json-to-render" ∨ language = "dictionary-list-to-render")
    (hparse : parseJson code = some j) :
    (∀ xs, j = JsVal.arr xs →
       rendererCode defaultRender code language
         = (renderProductList xs).getD (defaultRender code language)) ∧
    ((∀ xs, j ≠ JsVal.arr xs) →
       rendererCode defaultRender code language
         = (renderProductCard j).getD (defaultRender code language)) ∧
    (∀ s, jsRenderFragment j = some s →
       rendererCode defaultRender code "json-to-render"
         = rendererCode defaultRender code "dictionary-list-to-render") := by
  refine ⟨?_, ?_, ?_⟩
  · intro xs hxs
    subst hxs
    rcases hlang with h | h <;> subst h <;>
      · simp only [rendererCode, hparse, jsRenderFragment]
        cases hr : renderProductList xs <;> simp [hr]
  · intro hne
    have hfrag : jsRenderFragment j = renderProductCard j := by
      cases j with
      | arr xs => exact absurd rfl (hne xs)
      | null => rfl
      | bool b => rfl
      | num raw => rfl
      | str s => rfl
      | obj ms => rfl
    rcases hlang with h | h <;> subst h <;>
      · simp only [rendererCode, hparse, hfrag]
        cases hr : renderProductCard j <;> simp [hr]
  · intro s hs
    simp [rendererCode, hparse, hs]

/-- Witness for the amended C2 theorem: the empty-array payload under
`json-to-render` produces the product-list rendering. -/
theorem rendererCode_shape_dispatch_witness :
    rendererCode defaultCodeRender "[]" "json-to-render"
      = (renderProductList []).getD
          (defaultCodeRender "[]" "json-to-render") :=
  (rendererCode_shape_dispatch defaultCodeRender "[]" "json-to-render"
      (JsVal.arr []) (Or.inl rfl) rfl).1 [] rfl

/-- C5 (counterexample): rendering a `dictionary-list-to-render`
fragment with an empty-array payload yields the paragraph
`<p>No products found</p>`, not the sentence
"no replacement parts found" stated by the claim. -/
theorem renderEmptyList_counterexample :
    rendererCode defaultCodeRender "[]" "dictionary-list-to-render"
      = "<p>No products found</p>" ∧
    "<p>No products found</p>" ≠ "no replacement parts found" :=
  ⟨rfl, by decide⟩

/-- C5 (amended): rendering a `dictionary-list-to-render` fragment
whose payload is the empty array yields the plain not-found paragraph
`<p>No products found</p>` — a "not found" sentence, never an empty
structured product-list fragment. -/
theorem renderEmptyList_notFoundText (defaultRender : String → String → String)
    (code : String) (h : parseJson code = some (JsVal.arr [])) :
    rendererCode defaultRender code "dictionary-list-to-render"
      = "<p>No products found</p>" := by
  simp [rendererCode, h, jsRenderFragment, renderProductList]

/-- Witness for the amended C5 theorem at the literal payload `[]`. -/
theorem renderEmptyList_notFoundText_witness :
    rendererCode defaultCodeRender "[]" "dictionary-list-to-render"
      = "<p>No products found</p>" :=
  renderEmptyList_notFoundText defaultCodeRender "[]" rfl

theorem key_mem_upsertPart_self (store : List CatalogPart) (p : CatalogPart) :
    ∃ q ∈ upsertPart store p, upsertKey q = upsertKey p := by
  induction store with
  | nil => exact ⟨p, by simp [upsertPart], rfl⟩
  | cons q rest ih =>
    simp only [upsertPart]
    cases hq : upsertKey q == upsertKey p with
    | true => exact ⟨p, by simp [hq], rfl⟩
    | false =>
      rcases ih with ⟨w, hw, hk⟩
      exact ⟨w, by simp [hq, hw], hk⟩

theorem key_mem_upsertPart_mono (store : List CatalogPart) (p : CatalogPart)
    (k : String) (h : ∃ q ∈ store, upsertKey q = k) :
    ∃ q ∈ upsertPart store p, upsertKey q = k := by
  induction store with
  | nil => simp at h
  | cons q rest ih =>
    rcases h with ⟨w, hw, hk⟩
    simp only [upsertPart]
    cases hq : upsertKey q == upsertKey p with
    | true =>
      rcases List.mem_cons.mp hw with hwq | hwr
      · subst hwq
        exact ⟨p, by simp, by rw [← beq_iff_eq.mp hq]; exact hk⟩
      · exact ⟨w, by simp [hwr], hk⟩
    | false =>
      rcases List.mem_cons.mp hw with hwq | hwr
      · subst hwq
        exact ⟨w, by simp, hk⟩
      · rcases ih ⟨w, hwr, hk⟩ with ⟨u, hu, hku⟩
        exact ⟨u, by simp [hu], hku⟩

theorem key_mem_ingest_mono (source : List CatalogPart) (store : List CatalogPart)
    (k : String) (h : ∃ q ∈ store, upsertKey q = k) :
    ∃ q ∈ ingest store source, upsertKey q = k := by
  induction source generalizing store with
  | nil => exact h
  | cons p rest ih => exact ih (upsertPart store p) (key_mem_upsertPart_mono store p k h)

theorem key_mem_ingest_self (source : List CatalogPart) (store : List CatalogPart) :
    ∀ p ∈ source, ∃ q ∈ ingest store source, upsertKey q = upsertKey p := by
  induction source generalizing store with
  | nil => simp
  | cons hd rest ih =>
    intro p hp
    rcases List.mem_cons.mp hp with hph | hpr
    · subst hph
      exact key_mem_ingest_mono rest (upsertPart store p) (upsertKey p)
        (key_mem_upsertPart_self store p)
    · exact ih (upsertPart store hd) p hpr

theorem length_upsertPart_of_key_mem (store : List CatalogPart) (p : CatalogPart)
    (h : ∃ q ∈ store, upsertKey q = upsertKey p) :
    (upsertPart store p).length = store.length := by
  induction store with
  | nil => simp at h
  | cons q rest ih =>
    simp only [upsertPart]
    cases hq : upsertKey q == upsertKey p with
    | true => simp
    | false =>
      rcases h with ⟨w, hw, hk⟩
      rcases List.mem_cons.mp hw with hwq | hwr
      · subst hwq
        rw [hk] at hq
        simp at hq
      · simp [ih ⟨w, hwr, hk⟩]

theorem length_ingest_of_keys_present (source : List CatalogPart)
    (store : List CatalogPart)
    (h : ∀ p ∈ source, ∃ q ∈ store, upsertKey q = upsertKey p) :
    (ingest store source).length = store.length := by
  induction source generalizing store with
  | nil => rfl
  | cons p rest ih =>
    have hstep : (upsertPart store p).length = store.length :=
      length_upsertPart_of_key_mem store p (h p (by simp))
    have hrest : ∀ p2 ∈ rest, ∃ q ∈ upsertPart store p, upsertKey q = upsertKey p2 :=
      fun p2 hp2 => key_mem_upsertPart_mono store p _ (h p2 (by simp [hp2]))
    calc (ingest (upsertPart store p) rest).length
        = (upsertPart store p).length := ih (upsertPart store p) hrest
      _ = store.length := hstep

/-- C6: re-running Ingestion on the same source data leaves the total
number of Parts in the Catalog Store unchanged when every source Part
carries a non-empty manufacturer number (keyed upsert makes reruns
idempotent, creating no duplicate Parts). -/
theorem ingest_idempotent (store source : List CatalogPart)
    (h : ∀ p ∈ source, p.manufacturer_number ≠ "") :
    (ingest (ingest store source) source).length = (ingest store source).length :=
  length_ingest_of_keys_present source (ingest store source)
    (key_mem_ingest_self source store)

/-- Witness for C6 at a two-record source ingested into an empty
store. -/
theorem ingest_idempotent_witness :
    (ingest (ingest []
        [⟨"seal", "M1", "PS1", "fridge"⟩, ⟨"filter", "M2", "", "fridge"⟩])
        [⟨"seal", "M1", "PS1", "fridge"⟩, ⟨"filter", "M2", "", "fridge"⟩]).length
      = (ingest []
        [⟨"seal", "M1", "PS1", "fridge"⟩, ⟨"filter", "M2", "", "fridge"⟩]).length :=
  ingest_idempotent []
    [⟨"seal", "M1", "PS1", "fridge"⟩, ⟨"filter", "M2", "", "fridge"⟩]
    (by decide)

/-- C7: within one request turn the history is append-only — when the
input is non-blank, the final messages state is exactly the non-loading
part of the starting state (which preserves every non-loading starting
message, unchanged and in relative order, being a sublist) followed by
the new user message and the arrived response (or error) message. -/
theorem handleSend_append_only (messages : List ChatMessage) (input : String)
    (aiResponse : ChatMessage) (now : String) (h : jsTrim input ≠ "") :
    (handleSend messages input aiResponse now).1
      = messages.filter (fun msg => !msg.isLoading)
          ++ [mkUserMessage input now, aiResponse] ∧
    (messages.filter (fun msg => !msg.isLoading)).Sublist messages ∧
    (∀ m ∈ messages, m.isLoading = false →
       m ∈ (handleSend messages input aiResponse now).1) := by
  have hne : (jsTrim input == "") = false := beq_eq_false_iff_ne.mpr h
  have heq : (handleSend messages input aiResponse now).1
      = messages.filter (fun msg => !msg.isLoading)
          ++ [mkUserMessage input now, aiResponse] := by
    simp [handleSend, hne, List.filter_append, mkUserMessage, loadingMessage]
  refine ⟨heq, List.filter_sublist messages, ?_⟩
  intro m hm hl
  rw [heq]
  exact List.mem_append_left _ (List.mem_filter.mpr ⟨hm, by simp [hl]⟩)

/-- Witness for C7 at a one-message starting state and the input
"hello". -/
theorem handleSend_append_only_witness :
    (handleSend [(⟨"assistant", "Hi", false, "t0"⟩ : ChatMessage)] "hello"
        (⟨"assistant", "ok", false, "t2"⟩ : ChatMessage) "t1").1
      = [(⟨"assistant", "Hi", false, "t0"⟩ : ChatMessage)].filter
          (fun msg => !msg.isLoading)
          ++ [mkUserMessage "hello" "t1",
              (⟨"assistant", "ok", false, "t2"⟩ : ChatMessage)] :=
  (handleSend_append_only _ "hello" _ "t1" (by decide)).1

/-- C9: submitting a blank input (empty or all-whitespace) is a no-op:
`handleSend` leaves the messages state unchanged and sends no request
to the backend. -/
theorem handleSend_blank_noop (messages : List ChatMessage) (input : String)
    (aiResponse : ChatMessage) (now : String)
    (h : ∀ c ∈ input.data, isJsWhitespace c = true) :
    handleSend messages input aiResponse now = (messages, false) := by
  have h1 : input.data.dropWhile isJsWhitespace = [] :=
    List.dropWhile_eq_nil_iff.mpr h
  have h2 : jsTrim input = "" := by
    simp [jsTrim, h1]
  simp [handleSend, h2]

/-- Witness for C9 at the all-whitespace input consisting of a space
and a tab. -/
theorem handleSend_blank_noop_witness :
    handleSend [(⟨"assistant", "Hi", false, "t0"⟩ : ChatMessage)] " \t"
      (⟨"assistant", "ok", false, "t2"⟩ : ChatMessage) "t1"
      = ([(⟨"assistant", "Hi", false, "t0"⟩ : ChatMessage)], false) :=
  handleSend_blank_noop _ " \t" _ "t1" (by decide)

theorem mem_insertByLastUpdated {y s : ChatSession} {l : List ChatSession} :
    y ∈ insertByLastUpdated s l ↔ y = s ∨ y ∈ l := by
  induction l with
  | nil => simp [insertByLastUpdated]
  | cons t ts ih =>
    simp only [insertByLastUpdated]
    split
    · simp [List.mem_cons]
    · simp only [List.mem_cons, ih]
      tauto

theorem length_insertByLastUpdated (s : ChatSession) (l : List ChatSession) :
    (insertByLastUpdated s l).length = l.length + 1 := by
  induction l with
  | nil => rfl
  | cons t ts ih =>
    simp only [insertByLastUpdated]
    split
    · simp
    · simp [ih]

theorem sorted_insertByLastUpdated (s : ChatSession) {l : List ChatSession}
    (h : List.Sorted (fun a b => b.lastUpdated ≤ a.lastUpdated) l) :
    List.Sorted (fun a b => b.lastUpdated ≤ a.lastUpdated)
      (insertByLastUpdated s l) := by
  induction l with
  | nil => simp [insertByLastUpdated]
  | cons t ts ih =>
    rw [List.sorted_cons] at h
    simp only [insertByLastUpdated]
    by_cases hc : t.lastUpdated < s.lastUpdated
    · rw [if_pos hc, List.sorted_cons]
      refine ⟨?_, List.sorted_cons.mpr h⟩
      intro b hb
      rcases List.mem_cons.mp hb with hbt | hbts
      · subst hbt; exact le_of_lt hc
      · exact le_trans (h.1 b hbts) (le_of_lt hc)
    · rw [if_neg hc, List.sorted_cons]
      refine ⟨?_, ih h.2⟩
      intro b hb
      rcases mem_insertByLastUpdated.mp hb with hbs | hbts
      · subst hbs; exact le_of_not_lt hc
      · exact h.1 b hbts

theorem sorted_sortByLastUpdatedDesc (l : List ChatSession) :
    List.Sorted (fun a b => b.lastUpdated ≤ a.lastUpdated)
      (sortByLastUpdatedDesc l) := by
  induction l with
  | nil => simp [sortByLastUpdatedDesc]
  | cons s ss ih => exact sorted_insertByLastUpdated s ih

theorem length_sortByLastUpdatedDesc (l : List ChatSession) :
    (sortByLastUpdatedDesc l).length = l.length := by
  induction l with
  | nil => rfl
  | cons s ss ih => simp [sortByLastUpdatedDesc, length_insertByLastUpdated, ih]

theorem mem_sortByLastUpdatedDesc {y : ChatSession} {l : List ChatSession} :
    y ∈ sortByLastUpdatedDesc l ↔ y ∈ l := by
  induction l with
  | nil => simp [sortByLastUpdatedDesc]
  | cons s ss ih => simp [sortByLastUpdatedDesc, mem_insertByLastUpdated, ih]

theorem length_updateOrPush_of_mem (l : List ChatSession) (cs : ChatSession)
    (now : Nat) (h : ∃ s ∈ l, s.id = cs.id) :
    (updateOrPush l cs now).length = l.length := by
  induction l with
  | nil => simp at h
  | cons t ts ih =>
    simp only [updateOrPush]
    cases ht : t.id == cs.id with
    | true => simp
    | false =>
      rcases h with ⟨s, hs, hsid⟩
      rcases List.mem_cons.mp hs with hst | hsts
      · subst hst
        rw [hsid] at ht
        simp at ht
      · simp [ih ⟨s, hsts, hsid⟩]

theorem length_updateOrPush_of_not_mem (l : List ChatSession) (cs : ChatSession)
    (now : Nat) (h : ∀ s ∈ l, s.id ≠ cs.id) :
    (updateOrPush l cs now).length = l.length + 1 := by
  induction l with
  | nil => rfl
  | cons t ts ih =>
    have ht : (t.id == cs.id) = false :=
      beq_eq_false_iff_ne.mpr (h t (by simp))
    simp only [updateOrPush, ht, Bool.false_eq_true, if_false, List.length_cons]
    rw [ih (fun s hs => h s (by simp [hs]))]

theorem refreshed_mem_updateOrPush (l : List ChatSession) (cs : ChatSession)
    (now : Nat) :
    { cs with lastUpdated := now } ∈ updateOrPush l cs now := by
  induction l with
  | nil => simp [updateOrPush]
  | cons t ts ih =>
    simp only [updateOrPush]
    cases ht : t.id == cs.id with
    | true =>
      have : mergeSession t cs now = { cs with lastUpdated := now } := rfl
      simp [this]
    | false => simp [ih]

/-- C8: `saveChatSession` is an id-keyed upsert — saving over an
existing id keeps the stored count, a fresh id grows it by one, the
saved entry appears with its `lastUpdated` refreshed to `now`, and the
resulting stored list is sorted by `lastUpdated`, most recent first. -/
theorem saveChatSession_upsert (histories : List ChatSession)
    (chatSession : ChatSession) (now : Nat) :
    ((∃ s ∈ histories, s.id = chatSession.id) →
       (saveChatSession histories chatSession now).length = histories.length) ∧
    ((∀ s ∈ histories, s.id ≠ chatSession.id) →
       (saveChatSession histories chatSession now).length
         = histories.length + 1) ∧
    { chatSession with lastUpdated := now }
      ∈ saveChatSession histories chatSession now ∧
    List.Sorted (fun a b => b.lastUpdated ≤ a.lastUpdated)
      (saveChatSession histories chatSession now) := by
  refine ⟨?_, ?_, ?_, sorted_sortByLastUpdatedDesc _⟩
  · intro h
    rw [saveChatSession, length_sortByLastUpdatedDesc,
      length_updateOrPush_of_mem histories chatSession now h]
  · intro h
    rw [saveChatSession, length_sortByLastUpdatedDesc,
      length_updateOrPush_of_not_mem histories chatSession now h]
  · exact mem_sortByLastUpdatedDesc.mpr
      (refreshed_mem_updateOrPush histories chatSession now)

/-- Witness for C8: saving over an existing id keeps the count, saving
a fresh id increments it. -/
theorem saveChatSession_upsert_witness :
    (saveChatSession [(⟨"a", "old", [], 5⟩ : ChatSession)]
        (⟨"a", "new", [], 5⟩ : ChatSession) 9).length = 1 ∧
    (saveChatSession [(⟨"a", "old", [], 5⟩ : ChatSession)]
        (⟨"b", "other", [], 5⟩ : ChatSession) 9).length = 2 :=
  ⟨(saveChatSession_upsert [⟨"a", "old", [], 5⟩] ⟨"a", "new", [], 5⟩ 9).1
      ⟨⟨"a", "old", [], 5⟩, by simp, rfl⟩,
   (saveChatSession_upsert [⟨"a", "old", [], 5⟩] ⟨"b", "other", [], 5⟩ 9).2.1
      (by decide)⟩

/-- C10: deleting a session id removes exactly the sessions carrying
that id: every survivor has a different id, every differently-keyed
session survives, the survivors keep their original relative order
(sublist), and deleting an absent id leaves the stored list
unchanged. -/
theorem deleteChatSession_exact (histories : List ChatSession)
    (sessionId : String) :
    (∀ s ∈ deleteChatSession histories sessionId, s.id ≠ sessionId) ∧
    (∀ s ∈ histories, s.id ≠ sessionId →
       s ∈ deleteChatSession histories sessionId) ∧
    (deleteChatSession histories sessionId).Sublist histories ∧
    ((∀ s ∈ histories, s.id ≠ sessionId) →
       deleteChatSession histories sessionId = histories) := by
  refine ⟨?_, ?_, List.filter_sublist histories, ?_⟩
  · intro s hs
    have := (List.mem_filter.mp hs).2
    simpa [bne_iff_ne] using this
  · intro s hs hne
    exact List.mem_filter.mpr ⟨hs, by simpa [bne_iff_ne] using hne⟩
  · intro h
    exact List.filter_eq_self.mpr
      (fun s hs => by simpa [bne_iff_ne] using h s hs)

/-- Witness for C10: deleting "a" keeps the "b" session; deleting an
absent id is the identity. -/
theorem deleteChatSession_exact_witness :
    ((⟨"b", "kept", [], 1⟩ : ChatSession)
        ∈ deleteChatSession [⟨"a", "gone", [], 0⟩, ⟨"b", "kept", [], 1⟩] "a") ∧
    deleteChatSession [(⟨"a", "gone", [], 0⟩ : ChatSession)] "zzz"
      = [(⟨"a", "gone", [], 0⟩ : ChatSession)] :=
  ⟨(deleteChatSession_exact [⟨"a", "gone", [], 0⟩, ⟨"b", "kept", [], 1⟩] "a").2.1
      ⟨"b", "kept", [], 1⟩ (by simp) (by decide),
   (deleteChatSession_exact [⟨"a", "gone", [], 0⟩] "zzz").2.2.2 (by decide)⟩
